import Mathlib

/-!
Verification of the request-orchestration core of `react-ai-query`.

The development shallowly embeds the core modules of the repository:

* `src/core/utils.ts` — `stableStringify`, `isPrimitiveSchema`,
  `unwrapLLMResponse`, `safeJsonParse`, `parseAndValidateResponse`;
* `src/core/cache.ts` — `buildCacheKey`, `getFromSessionCache`,
  `setSessionCache`, `clearSessionCache`;
* `src/core/cost.ts` — `estimateTokens`, `deriveTokens`, `resolveTokens`;
* `src/core/execution.ts` — `executeAI` and its inner `attemptExecution`;
* `src/core/streamExecution.ts` — `executeAIStream`.

JavaScript runtime values are modelled by the inductive type `JsValue`
(numbers as integers — no claim involves fractional numbers), Zod schemas by
the inductive type `Schema` covering the constructs the library manipulates,
and the asynchronous provider adapter by a pure function giving the outcome
of each attempt.  Platform functions used by the code (`JSON.parse`,
`JSON.stringify`, `String.prototype.trim`, array `sort`/`join`) are modelled
by executable Lean functions defined below.  Arrays and object field lists
are represented by the types `JsList`/`JsFields` mutually inductive with
`JsValue` (so that all recursion is structural), with `toList`/`ofList`
conversions to ordinary Lean lists.
-/

set_option maxHeartbeats 1000000

namespace RAQ

/-! ### JavaScript values -/

mutual
/-- A JavaScript runtime value, as far as the library observes it:
`null`, `undefined`, booleans, numbers (modelled as integers), strings,
arrays, plain objects (field lists; JavaScript objects have
pairwise-distinct keys, which claims assume where relevant), and function
values (observed only by `typeof val === "function"` checks). -/
inductive JsValue : Type where
  | null
  | undef
  | func
  | bool (b : Bool)
  | num (n : Int)
  | str (s : String)
  | arr (xs : JsList)
  | obj (fields : JsFields)

/-- The element list of a JavaScript array. -/
inductive JsList : Type where
  | nil
  | cons (hd : JsValue) (tl : JsList)

/-- The field list of a JavaScript object, in insertion order. -/
inductive JsFields : Type where
  | nil
  | cons (key : String) (val : JsValue) (tl : JsFields)
end

/-- View a `JsList` as a Lean list. -/
def JsList.toList : JsList → List JsValue
  | .nil => []
  | .cons x xs => x :: xs.toList

/-- Build a `JsList` from a Lean list. -/
def JsList.ofList : List JsValue → JsList
  | [] => .nil
  | x :: rest => .cons x (JsList.ofList rest)

/-- View a `JsFields` as a Lean association list. -/
def JsFields.toList : JsFields → List (String × JsValue)
  | .nil => []
  | .cons k v fs => (k, v) :: fs.toList

/-- Build a `JsFields` from a Lean association list. -/
def JsFields.ofList : List (String × JsValue) → JsFields
  | [] => .nil
  | (k, v) :: rest => .cons k v (JsFields.ofList rest)

theorem jsListToList_ofList (l : List JsValue) : (JsList.ofList l).toList = l := by
  induction l with
  | nil => rfl
  | cons x rest ih => simp [JsList.ofList, JsList.toList, ih]

theorem jsFieldsToList_ofList (l : List (String × JsValue)) :
    (JsFields.ofList l).toList = l := by
  induction l with
  | nil => rfl
  | cons p rest ih => cases p; simp [JsFields.ofList, JsFields.toList, ih]

theorem jsListOfList_toList : ∀ (xs : JsList), JsList.ofList xs.toList = xs
  | .nil => rfl
  | .cons x rest => by simp [JsList.toList, JsList.ofList, jsListOfList_toList rest]

theorem jsFieldsOfList_toList : ∀ (fs : JsFields), JsFields.ofList fs.toList = fs
  | .nil => rfl
  | .cons k v rest => by
      simp [JsFields.toList, JsFields.ofList, jsFieldsOfList_toList rest]

/-- `typeof v === "undefined"` discriminator (used for the
`serialized !== undefined` and `data === undefined` checks). -/
def JsValue.isUndef : JsValue → Bool
  | .undef => true
  | _ => false

/-- JavaScript truthiness of a value (`if (input) ...`). `NaN` is not
modelled; empty strings, `0`, `false`, `null` and `undefined` are falsy. -/
def truthy : JsValue → Bool
  | .null => false
  | .undef => false
  | .func => true
  | .bool b => b
  | .num n => !(n = 0 : Bool)
  | .str s => !(s.length = 0 : Bool)
  | .arr _ => true
  | .obj _ => true

/-- JavaScript property lookup on an object (`obj[key]` / `key in obj`);
first binding wins, matching real objects where keys are unique. -/
def lookupField (k : String) : JsFields → Option JsValue
  | .nil => none
  | .cons k' v rest => if k' = k then some v else lookupField k rest

/-! ### Character-level string helpers

The sandboxed kernel cannot evaluate the built-in `String` order and trim
functions, so the JavaScript semantics are modelled directly on the
character lists underlying Lean strings. -/

/-- The whitespace class of JavaScript's `\s` / `String.prototype.trim`
(ASCII part plus NBSP and BOM; the exotic Unicode spaces are not used by any
claim). -/
def isJsSpace (c : Char) : Bool :=
  c = ' ' || c = '\t' || c = '\n' || c = '\r' || c.toNat = 11 || c.toNat = 12 ||
    c.toNat = 0xa0 || c.toNat = 0xfeff

/-- Model of `String.prototype.trim`. -/
def jsTrim (s : String) : String :=
  String.mk (((s.data.dropWhile isJsSpace).reverse.dropWhile isJsSpace).reverse)

/-- Three-way comparison of character lists by code point, the order behind
JavaScript's default string comparison (`<`/`>` on strings compare UTF-16
code units; for the code points appearing anywhere in this development the
two orders agree). -/
def cmpChars : List Char → List Char → Ordering
  | [], [] => .eq
  | [], _ :: _ => .lt
  | _ :: _, [] => .gt
  | c :: cs, d :: ds =>
    if c.toNat < d.toNat then .lt
    else if d.toNat < c.toNat then .gt
    else cmpChars cs ds

theorem cmpChars_eq_iff : ∀ {x y : List Char}, cmpChars x y = .eq ↔ x = y := by
  intro x
  induction x with
  | nil => intro y; cases y <;> simp [cmpChars]
  | cons c cs ih =>
    intro y
    cases y with
    | nil => simp [cmpChars]
    | cons d ds =>
      by_cases h1 : c.toNat < d.toNat
      · simp only [cmpChars, if_pos h1]
        constructor
        · intro h; exact absurd h (by simp)
        · rintro ⟨rfl, rfl⟩; omega
      · by_cases h2 : d.toNat < c.toNat
        · simp only [cmpChars, if_neg h1, if_pos h2]
          constructor
          · intro h; exact absurd h (by simp)
          · rintro ⟨rfl, rfl⟩; omega
        · have hcd : c = d := by
            have hn : c.toNat = d.toNat := by omega
            have h3 := congrArg Char.ofNat hn
            rwa [Char.ofNat_toNat, Char.ofNat_toNat] at h3
          subst hcd
          simp only [cmpChars, if_neg h1, if_neg h2]
          rw [ih]
          simp

theorem cmpChars_gt_iff_lt : ∀ {x y : List Char},
    cmpChars x y = .gt ↔ cmpChars y x = .lt := by
  intro x
  induction x with
  | nil => intro y; cases y <;> simp [cmpChars]
  | cons c cs ih =>
    intro y
    cases y with
    | nil => simp [cmpChars]
    | cons d ds =>
      by_cases h1 : c.toNat < d.toNat
      · have h2 : ¬ d.toNat < c.toNat := by omega
        simp [cmpChars, h1, h2]
      · by_cases h2 : d.toNat < c.toNat
        · simp [cmpChars, h1, h2]
        · simp [cmpChars, h1, h2, ih]

theorem cmpChars_lt_trans : ∀ {x y z : List Char},
    cmpChars x y = .lt → cmpChars y z = .lt → cmpChars x z = .lt := by
  intro x
  induction x with
  | nil =>
    intro y z h1 h2
    cases y with
    | nil => exact h2
    | cons d ds => cases z with
      | nil => simp [cmpChars] at h2
      | cons e es => simp [cmpChars]
  | cons c cs ih =>
    intro y z h1 h2
    cases y with
    | nil => simp [cmpChars] at h1
    | cons d ds =>
      cases z with
      | nil => simp [cmpChars] at h2
      | cons e es =>
        simp only [cmpChars] at h1 h2 ⊢
        by_cases hcd : c.toNat < d.toNat
        · by_cases hde : d.toNat < e.toNat
          · have : c.toNat < e.toNat := by omega
            simp [this]
          · by_cases hed : e.toNat < d.toNat
            · simp [hcd, hde, hed] at h2
            · have : c.toNat < e.toNat := by omega
              simp [this]
        · by_cases hdc : d.toNat < c.toNat
          · simp [hcd, hdc] at h1
          · by_cases hde : d.toNat < e.toNat
            · have h3 : c.toNat < e.toNat := by omega
              simp [h3]
            · by_cases hed : e.toNat < d.toNat
              · simp [hde, hed] at h2
              · have h3 : ¬ c.toNat < e.toNat := by omega
                have h4 : ¬ e.toNat < c.toNat := by omega
                simp only [if_neg h3, if_neg h4]
                simp only [if_neg hcd, if_neg hdc] at h1
                simp only [if_neg hde, if_neg hed] at h2
                exact ih h1 h2

/-! ### `stableStringify` (src/core/utils.ts)

The inner `serialize` walk of `stableStringify`:

* maps functions to `undefined`;
* keeps other primitives (and `null`/`undefined`) unchanged;
* serializes arrays element-wise;
* serializes object fields, drops the fields whose serialization is
  `undefined`, and sorts the remaining fields by key
  (`Object.keys(val).sort()`; the source sorts the keys before serializing
  the values and the model sorts after, which is observationally equal since
  the sort is stable and compares keys only).

The `seen`-set check of the source replaces a revisited object by the string
`"[Circular]"`; inductive values are finite trees, in which an object is
never revisited, so the check never fires within the modelled range (the
cyclic-reference behaviour is outside a shallow embedding of values). -/

/-- Key order on object fields used for `Object.keys(val).sort()`. -/
def fieldLe (p q : String × JsValue) : Prop := cmpChars p.1.data q.1.data ≠ .gt

/-- Strict key order on object fields. -/
def fieldLt (p q : String × JsValue) : Prop := cmpChars p.1.data q.1.data = .lt

instance : DecidableRel fieldLe := fun p q =>
  inferInstanceAs (Decidable (cmpChars p.1.data q.1.data ≠ .gt))

instance : DecidableRel fieldLt := fun p q =>
  inferInstanceAs (Decidable (cmpChars p.1.data q.1.data = .lt))

instance : IsTotal (String × JsValue) fieldLe where
  total p q := by
    unfold fieldLe
    by_cases h : cmpChars p.1.data q.1.data = .gt
    · right; rw [cmpChars_gt_iff_lt] at h; simp [h]
    · left; exact h

instance : IsTrans (String × JsValue) fieldLe where
  trans p q r := by
    unfold fieldLe
    intro h1 h2
    rcases ho1 : cmpChars p.1.data q.1.data with _ | _ | _
    · rcases ho2 : cmpChars q.1.data r.1.data with _ | _ | _
      · intro h; rw [cmpChars_lt_trans ho1 ho2] at h; exact absurd h (by simp)
      · rw [cmpChars_eq_iff] at ho2; rw [ho2] at ho1; intro h; rw [ho1] at h
        exact absurd h (by simp)
      · exact absurd ho2 h2
    · rw [cmpChars_eq_iff] at ho1; rw [ho1]; exact h2
    · exact absurd ho1 h1

instance : IsAntisymm (String × JsValue) fieldLt where
  antisymm p q h1 h2 := by
    unfold fieldLt at h1 h2
    rw [← cmpChars_gt_iff_lt] at h2
    rw [h1] at h2
    exact absurd h2 (by simp)

instance : IsTrans (String × JsValue) fieldLt where
  trans p q r h1 h2 := cmpChars_lt_trans h1 h2

mutual
/-- The `serialize` closure inside `stableStringify`. -/
def serialize : JsValue → JsValue
  | .null => .null
  | .undef => .undef
  | .func => .undef
  | .bool b => .bool b
  | .num n => .num n
  | .str s => .str s
  | .arr xs => .arr (serializeList xs)
  | .obj fs =>
      .obj (JsFields.ofList (List.insertionSort fieldLe
        (((serializeFields fs).toList).filter (fun p => !p.2.isUndef))))

/-- Element-wise `serialize` over an array (`val.map(serialize)`). -/
def serializeList : JsList → JsList
  | .nil => .nil
  | .cons x xs => .cons (serialize x) (serializeList xs)

/-- Field-wise `serialize` over an object's fields. -/
def serializeFields : JsFields → JsFields
  | .nil => .nil
  | .cons k v fs => .cons k (serialize v) (serializeFields fs)
end

theorem serializeList_toList : ∀ (xs : JsList),
    (serializeList xs).toList = xs.toList.map serialize
  | .nil => rfl
  | .cons x rest => by
      simp [serializeList, JsList.toList, serializeList_toList rest]

theorem serializeFields_toList : ∀ (fs : JsFields),
    (serializeFields fs).toList = fs.toList.map (fun p => (p.1, serialize p.2))
  | .nil => rfl
  | .cons k v rest => by
      simp [serializeFields, JsFields.toList, serializeFields_toList rest]

/-! ### Zod schemas (as the library observes them)

The library inspects a schema only through `_def.typeName`, the
`description` field, `safeParse`, and (in prompt building) the recursive
example walk.  `Schema` models the constructs exercised by the claims:
`z.string()` (with an optional `.max(n)` length bound), `z.number()`,
`z.boolean()`, and `z.object({...})`, each with an optional
`.describe(...)` description. -/

mutual
/-- A Zod schema, restricted to the constructs the claims exercise. -/
inductive Schema : Type where
  | str (desc : Option String) (maxLen : Option Nat)
  | num (desc : Option String)
  | bool (desc : Option String)
  | obj (desc : Option String) (fields : SchemaFields)

/-- The declared fields of a `z.object({...})` schema, in declaration
order. -/
inductive SchemaFields : Type where
  | nil
  | cons (key : String) (sub : Schema) (tl : SchemaFields)
end

/-- The declared field names of an object schema's field list. -/
def SchemaFields.keys : SchemaFields → List String
  | .nil => []
  | .cons k _ tl => k :: tl.keys

/-- `schema._def.typeName`. -/
def Schema.typeName : Schema → String
  | .str _ _ => "ZodString"
  | .num _ => "ZodNumber"
  | .bool _ => "ZodBoolean"
  | .obj _ _ => "ZodObject"

/-- `schema.description` (set by `.describe(...)`, otherwise absent). -/
def Schema.description : Schema → Option String
  | .str d _ => d
  | .num d => d
  | .bool d => d
  | .obj d _ => d

/-- `isPrimitiveSchema` (src/core/utils.ts): the type name is `ZodString`,
`ZodNumber` or `ZodBoolean`. -/
def isPrimitiveSchema : Schema → Bool
  | .str _ _ => true
  | .num _ => true
  | .bool _ => true
  | _ => false

mutual
/-- Model of Zod's `schema.safeParse(v)`: `some data` on success (with
unknown object keys stripped and declared fields re-assembled in schema
order, as Zod does), `none` on failure.  A `z.string().max(n)` bound checks
the string length; `z.object` requires every declared field to be present
and valid. -/
def safeParse : Schema → JsValue → Option JsValue
  | .str _ ml, .str s =>
      match ml with
      | none => some (.str s)
      | some m => if s.length ≤ m then some (.str s) else none
  | .num _, .num n => some (.num n)
  | .bool _, .bool b => some (.bool b)
  | .obj _ sfs, .obj vfs => (parseObjFields sfs vfs).map .obj
  | _, _ => none

/-- Validate the declared fields of an object schema against an object's
fields. -/
def parseObjFields : SchemaFields → JsFields → Option JsFields
  | .nil, _ => some .nil
  | .cons k sub rest, vfs =>
      match lookupField k vfs with
      | none => none
      | some w =>
          match safeParse sub w with
          | none => none
          | some r => (parseObjFields rest vfs).map (.cons k r)
end

/-! ### `JSON.stringify` model -/

/-- Left brace character (`\x7b`). -/
def lbrace : Char := Char.ofNat 123

/-- Right brace character (`\x7d`). -/
def rbrace : Char := Char.ofNat 125

/-- JSON string escaping of one character.  The `\b`, `\f` and `\u00XX`
escapes for other control characters are not modelled (no claim exercises
them). -/
def escChar (c : Char) : String :=
  if c = '"' then "\\\""
  else if c = '\\' then "\\\\"
  else if c = '\n' then "\\n"
  else if c = '\t' then "\\t"
  else if c = '\r' then "\\r"
  else String.mk [c]

/-- JSON string quoting. -/
def jsonQuote (s : String) : String :=
  "\"" ++ String.join (s.data.map escChar) ++ "\""

mutual
/-- Model of the platform's `JSON.stringify` on the values the library
feeds it.  `undefined` and function values stringify to `none` (JavaScript
`undefined`); inside arrays they render as `null`, inside objects the field
is dropped. -/
def jsonStringify : JsValue → Option String
  | .null => some "null"
  | .undef => none
  | .func => none
  | .bool b => some (if b then "true" else "false")
  | .num n => some (toString n)
  | .str s => some (jsonQuote s)
  | .arr xs =>
      some ("[" ++ String.intercalate "," (stringifyList xs) ++ "]")
  | .obj fs =>
      some (String.mk [lbrace] ++ String.intercalate "," (stringifyFields fs)
        ++ String.mk [rbrace])

/-- Stringify array elements (`undefined` renders as `null`). -/
def stringifyList : JsList → List String
  | .nil => []
  | .cons x xs => ((jsonStringify x).getD "null") :: stringifyList xs

/-- Stringify object fields, dropping fields whose value stringifies to
`undefined`. -/
def stringifyFields : JsFields → List String
  | .nil => []
  | .cons k v fs =>
      match jsonStringify v with
      | none => stringifyFields fs
      | some sv => (jsonQuote k ++ ":" ++ sv) :: stringifyFields fs
end

/-- `stableStringify` (src/core/utils.ts): `JSON.stringify(serialize(value))`.
The result is `none` exactly when the JavaScript call returns `undefined`
(top-level `undefined`/function input); the `catch` branch returning
`String(value)` is unreachable on modelled values (no cycles, no BigInt), so
it is not modelled. -/
def stableStringify (v : JsValue) : Option String := jsonStringify (serialize v)

/-! ### `JSON.parse` model

A recursive-descent parser with a fuel argument (callers pass
`length + 1`, which is always sufficient since every step consumes at least
one character).  Modelling caveats, none exercised by a claim: numeric
literals are restricted to optionally-signed integers, `\uXXXX` string
escapes are rejected, and duplicate object keys are kept in order (real
`JSON.parse` keeps the last occurrence). -/

/-- JSON whitespace (`JSON.parse` skips space, tab, newline, return). -/
def jsonWs (c : Char) : Bool := c = ' ' || c = '\t' || c = '\n' || c = '\r'

/-- Skip JSON whitespace. -/
def skipWs (cs : List Char) : List Char := cs.dropWhile jsonWs

/-- JSON string escape resolution. -/
def unescChar (e : Char) : Option Char :=
  if e = '"' then some '"'
  else if e = '\\' then some '\\'
  else if e = '/' then some '/'
  else if e = 'n' then some '\n'
  else if e = 't' then some '\t'
  else if e = 'r' then some '\r'
  else none

/-- Parse the body of a JSON string after the opening quote; returns the
string and the remainder after the closing quote. -/
def parseStringBody : Nat → List Char → Option (String × List Char)
  | 0, _ => none
  | fuel+1, cs =>
    match cs with
    | [] => none
    | c :: rest =>
      if c = '"' then some ("", rest)
      else if c = '\\' then
        match rest with
        | [] => none
        | e :: rest2 =>
          match unescChar e with
          | none => none
          | some ec =>
            match parseStringBody fuel rest2 with
            | none => none
            | some (s, r) => some (String.mk (ec :: s.data), r)
      else
        match parseStringBody fuel rest with
        | none => none
        | some (s, r) => some (String.mk (c :: s.data), r)

/-- Parse a nonempty run of decimal digits. -/
def parseDigits (cs : List Char) : Option (Nat × List Char) :=
  let ds := cs.takeWhile Char.isDigit
  if ds.isEmpty then none
  else some (ds.foldl (fun acc c => acc * 10 + (c.toNat - 48)) 0, cs.drop ds.length)

/-- Parse an optionally-signed integer literal. -/
def parseNumber (cs : List Char) : Option (Int × List Char) :=
  match cs with
  | '-' :: rest => (parseDigits rest).map (fun p => (-(p.1 : Int), p.2))
  | _ => (parseDigits cs).map (fun p => ((p.1 : Int), p.2))

/-- Parse the members of a JSON object, starting right after `\x7b` or a
member-separating comma; `pv` parses one value. -/
def parseMembers (pv : List Char → Option (JsValue × List Char)) :
    Nat → List Char → Option (JsFields × List Char)
  | 0, _ => none
  | fuel+1, cs =>
    match skipWs cs with
    | [] => none
    | c :: rest =>
      if c = '"' then
        match parseStringBody (rest.length + 1) rest with
        | none => none
        | some (k, r1) =>
          match skipWs r1 with
          | ':' :: r2 =>
            match pv r2 with
            | none => none
            | some (v, r3) =>
              match skipWs r3 with
              | ',' :: r4 =>
                match parseMembers pv fuel r4 with
                | none => none
                | some (fs, r5) => some (.cons k v fs, r5)
              | d :: r4 =>
                if d = rbrace then some (.cons k v .nil, r4) else none
              | [] => none
          | _ => none
      else none

/-- Parse the elements of a JSON array, starting right after `[` or an
element-separating comma. -/
def parseElements (pv : List Char → Option (JsValue × List Char)) :
    Nat → List Char → Option (JsList × List Char)
  | 0, _ => none
  | fuel+1, cs =>
    match pv cs with
    | none => none
    | some (v, r1) =>
      match skipWs r1 with
      | ',' :: r2 =>
        match parseElements pv fuel r2 with
        | none => none
        | some (xs, r3) => some (.cons v xs, r3)
      | ']' :: r2 => some (.cons v .nil, r2)
      | _ => none

/-- Parse one JSON value. -/
def parseValueF : Nat → List Char → Option (JsValue × List Char)
  | 0, _ => none
  | fuel+1, cs₀ =>
    match skipWs cs₀ with
    | [] => none
    | c :: rest =>
      if c = lbrace then
        match skipWs rest with
        | [] => none
        | d :: r1 =>
          if d = rbrace then some (.obj .nil, r1)
          else
            match parseMembers (parseValueF fuel) (rest.length + 1) rest with
            | none => none
            | some (fs, r) => some (.obj fs, r)
      else if c = '[' then
        match skipWs rest with
        | ']' :: r1 => some (.arr .nil, r1)
        | _ =>
          match parseElements (parseValueF fuel) (rest.length + 1) rest with
          | none => none
          | some (xs, r) => some (.arr xs, r)
      else if c = '"' then
        match parseStringBody (rest.length + 1) rest with
        | none => none
        | some (s, r) => some (.str s, r)
      else if c = 'n' then
        match rest with
        | 'u' :: 'l' :: 'l' :: r => some (.null, r)
        | _ => none
      else if c = 't' then
        match rest with
        | 'r' :: 'u' :: 'e' :: r => some (.bool true, r)
        | _ => none
      else if c = 'f' then
        match rest with
        | 'a' :: 'l' :: 's' :: 'e' :: r => some (.bool false, r)
        | _ => none
      else
        match parseNumber (c :: rest) with
        | none => none
        | some (n, r) => some (.num n, r)

/-- Model of the platform's `JSON.parse`: parse one value and require only
whitespace to remain (otherwise `JSON.parse` throws, modelled as `none`). -/
def jsonParse (s : String) : Option JsValue :=
  match parseValueF (s.data.length + 1) s.data with
  | some (v, rest) => if (skipWs rest).isEmpty then some v else none
  | none => none

/-! ### `safeJsonParse` (src/core/utils.ts) -/

/-- The tail condition of the recovery regex
`/^\s*(\{[\s\S]*\})\s*(?:\n|$)/`: after the closing brace the text must
reach the end through whitespace, or reach a newline through whitespace. -/
def tailOk : List Char → Bool
  | [] => true
  | c :: r => if c = '\n' then true else if isJsSpace c then tailOk r else false

/-- The capture group of the recovery regex: after optional leading
whitespace the text must start with `\x7b`; the greedy `[\s\S]*` selects the
largest index of a `\x7d` whose tail satisfies `tailOk`. -/
def extractJsonCandidate (s : String) : Option String :=
  let cs := s.data.dropWhile isJsSpace
  match cs with
  | [] => none
  | c :: _ =>
    if c = lbrace then
      (((List.range cs.length).filter
          (fun j => (cs.getD j ' ' == rbrace) && tailOk (cs.drop (j+1)))).getLast?).map
        (fun j => String.mk (cs.take (j+1)))
    else none

/-- `safeJsonParse` (src/core/utils.ts): strict `JSON.parse`, then the
regex recovery of a single top-level object tolerating trailing prose,
else `undefined`. -/
def safeJsonParse (content : String) : JsValue :=
  match jsonParse content with
  | some v => v
  | none =>
    match extractJsonCandidate content with
    | some sub => (jsonParse sub).getD .undef
    | none => (.undef)

/-! ### `unwrapLLMResponse` (src/core/utils.ts) -/

/-- `unwrapLLMResponse`: non-objects pass through; for primitive schemas a
single-key object is unwrapped to its value (the source's wrapper-key loop
checks `Object.keys(obj).length === 1` inside, so it is subsumed by the
single-key rule), a multi-key object falls through to the shared `data`
check; for all objects, a `data` field is unwrapped; arrays are JavaScript
objects whose keys are their indices, so a one-element array unwraps for a
primitive schema.  Otherwise the value passes through unchanged. -/
def unwrapLLMResponse (parsed : JsValue) (schema : Schema) : JsValue :=
  match parsed with
  | .obj fields =>
    if isPrimitiveSchema schema then
      match fields with
      | .cons _ v .nil => v
      | _ =>
        match lookupField "data" fields with
        | some v => v
        | none => parsed
    else
      match lookupField "data" fields with
      | some v => v
      | none => parsed
  | .arr xs =>
    if isPrimitiveSchema schema then
      match xs with
      | .cons x .nil => x
      | _ => parsed
    else parsed
  | _ => parsed

/-! ### Errors (src/core/types: `AIError`, `ErrorCode`) -/

/-- The `ErrorCode` taxonomy. -/
inductive ErrorCode : Type where
  | validation_error
  | provider_error
  | timeout
  | fallback
  | configuration
  deriving DecidableEq

/-- An `AIError`.  The `cause` diagnostic payload is not modelled (no claim
observes it). -/
structure AIErrorV : Type where
  message : String
  code : ErrorCode
  deriving DecidableEq

/-! ### `parseAndValidateResponse` (src/core/utils.ts) -/

/-- `parseAndValidateResponse`: for a primitive schema, first try the
trimmed raw text directly against the schema and use the trimmed text
itself on success; otherwise (and for structured schemas) JSON-parse the
raw text leniently and unwrap wrapper shapes; fail with `provider_error` if
the candidate is `undefined`, then validate against the schema, failing
with `validation_error`. -/
def parseAndValidateResponse (rawContent : JsValue) (schema : Schema)
    (isPrimitive : Bool) (providerName : String) : Except AIErrorV JsValue :=
  let data : JsValue :=
    if isPrimitive then
      let trimmed : JsValue :=
        match rawContent with
        | .str s => .str (jsTrim s)
        | v => v
      if (safeParse schema trimmed).isSome then trimmed
      else
        let parsed : JsValue :=
          match rawContent with
          | .str s => safeJsonParse s
          | v => v
        unwrapLLMResponse parsed schema
    else
      let parsed : JsValue :=
        match rawContent with
        | .str s => safeJsonParse s
        | v => v
      unwrapLLMResponse parsed schema
  if data.isUndef then
    .error ⟨providerName ++ " returned no data", .provider_error⟩
  else
    match safeParse schema data with
    | none => .error ⟨providerName ++ " returned invalid schema", .validation_error⟩
    | some validated => .ok validated

/-! ### Cost accounting (src/core/cost.ts) -/

/-- `estimateTokens`: `ceil(prompt.length/4)` plus, for truthy input,
`ceil(stableStringify(input).length/4)`, plus a buffer of 8.
`Math.ceil(x/4)` on a natural `x` is `(x+3)/4`.  The `.getD ""` covers only
a truthy input whose `stableStringify` is `undefined` (a top-level function
value), where the JavaScript code would throw; no claim exercises it. -/
def estimateTokens (prompt : String) (input : JsValue) : Nat :=
  let promptTokens := (prompt.length + 3) / 4
  let inputTokens :=
    if truthy input then (((stableStringify input).getD "").length + 3) / 4 else 0
  promptTokens + inputTokens + 8

/-- `deriveTokens` (an alias of `estimateTokens`). -/
def deriveTokens (prompt : String) (input : JsValue) : Nat :=
  estimateTokens prompt input

/-- `resolveTokens`: prefer the provider-reported count (an explicit
`undefined` check, so a reported `0` is kept), else estimate. -/
def resolveTokens (resultTokens : Option Nat) (prompt : String) (input : JsValue) :
    Nat :=
  match resultTokens with
  | some t => t
  | none => deriveTokens prompt input

/-! ### Execution results and the session cache (src/core/cache.ts)

`AIExecutionResult` is modelled with the optional `fromCache`,
`usedFallback` and `fallbackReason` fields defaulted (`false`/`none` stand
for the absent property). -/

/-- An `AIExecutionResult`. -/
structure ExecutionResult : Type where
  data : JsValue
  tokens : Nat
  fromCache : Bool
  usedFallback : Bool := false
  fallbackReason : Option String := none

/-- A `CacheEntry`: the stored result together with the `Date.now()`
timestamp recorded by `setSessionCache`. -/
structure CacheEntry : Type where
  result : ExecutionResult
  timestamp : Nat

/-- The module-level `sessionCache` map, modelled as an association list
with most-recent insertion first (only `get`/`set`/`clear` observe it, so
the iteration order of the real `Map` is irrelevant). -/
abbrev SessionCache : Type := List (String × CacheEntry)

/-- `buildCacheKey` (src/core/cache.ts).  Its parameter type has exactly
`prompt`, `input` and `schema`; the schema identity is
`schema.description || schema._def.typeName || schema.toString()`, where a
present-but-empty description is falsy and falls through, and the
`toString()` fallback is unreachable because `_def.typeName` is always a
nonempty string.  `Array.prototype.join` renders an `undefined`
serialization as the empty string. -/
def buildCacheKey (prompt : String) (input : JsValue) (schema : Schema) : String :=
  let schemaId :=
    match schema.description with
    | some d => if d.length = 0 then schema.typeName else d
    | none => schema.typeName
  String.intercalate "::" [jsTrim prompt, (stableStringify input).getD "", schemaId]

/-- `getFromSessionCache`: look the key up and return the stored result
with `fromCache` forced to `true` (`{ ...hit, fromCache: true }`). -/
def getFromSessionCache (key : String) : SessionCache → Option ExecutionResult
  | [] => none
  | (k, e) :: rest =>
      if k = key then some { e.result with fromCache := true }
      else getFromSessionCache key rest

/-- Remove a key's binding (helper for the overwriting `Map.prototype.set`). -/
def eraseKey (key : String) : SessionCache → SessionCache
  | [] => []
  | (k, e) :: rest =>
      if k = key then eraseKey key rest else (k, e) :: eraseKey key rest

/-- `setSessionCache`: store the result with the current timestamp,
overwriting any previous binding of the key. -/
def setSessionCache (key : String) (value : ExecutionResult) (now : Nat)
    (c : SessionCache) : SessionCache :=
  (key, ⟨value, now⟩) :: eraseKey key c

/-- `clearSessionCache`. -/
def clearSessionCache (_ : SessionCache) : SessionCache := []

/-! ### The execution engine (src/core/execution.ts)

`executeAI` is an `async` function whose effects are the session-cache
reads/writes and the provider-adapter invocations.  The embedding passes
the cache state explicitly and models the adapter as a pure function from
the call arguments and the attempt index to that attempt's outcome (the
index models the nondeterminism of repeated calls; a real adapter does not
see it).  An attempt's outcome is:

* `success data tokens` — the adapter resolved before the deadline;
* `failure err` — the adapter rejected before the deadline;
* `timedOut err` — the per-attempt deadline fired first, so the abort
  signal was triggered and the adapter's promise settled with `err` only
  after the abort (`controller.signal.aborted` is observed `true` by the
  `catch` block; `err` itself is discarded there).

The `sanitizePrompt`/`sanitizeInput` helpers live in `src/core/sanitize.ts`,
which is not part of the sources; the engine is parametrized over them
(the spec fixes nothing about them beyond determinism, which holds for any
Lean function). -/

/-- The `CachePolicy` type: `"session" | false`. -/
inductive CachePolicy : Type where
  | session
  | disabled
  deriving DecidableEq

/-- A JavaScript exception: either an `AIError` or any other thrown value,
rendered by `String(...)`. -/
inductive Thrown : Type where
  | ai (e : AIErrorV)
  | other (s : String)

/-- The outcome of one provider-adapter attempt (see the section header). -/
inductive AdapterOutcome : Type where
  | success (data : JsValue) (tokens : Option Nat)
  | failure (err : Thrown)
  | timedOut (err : Thrown)

/-- The argument record handed to `provider.execute` (the abort signal is
represented by the `timedOut` outcome instead). -/
structure ExecArgs : Type where
  prompt : String
  input : JsValue
  schema : Schema
  temperature : Int
  maxTokens : Option Nat
  providerOptions : Option JsValue

/-- A provider adapter, as a pure outcome function. -/
abbrev AdapterFn : Type := ExecArgs → Nat → AdapterOutcome

/-- A fallback: a plain value, or a function invoked at fallback time
(`typeof fallback === "function"`). -/
inductive FallbackSpec : Type where
  | value (v : JsValue)
  | fn (f : Unit → JsValue)

/-- Resolve a fallback, invoking it if it is a function. -/
def resolveFallback : FallbackSpec → JsValue
  | .value v => v
  | .fn f => f ()

/-- The options record of `executeAI`; `none` models an omitted optional
argument (defaults are applied inside `executeAI`).  The `provider`
argument is the separate `AdapterFn`; `selectProvider` defaults a missing
provider to `mockProvider`, so the engine-level
`throw new AIError("Provider is required", "configuration")` is
unreachable and the model always has an adapter. -/
structure RequestArgs : Type where
  prompt : String
  input : JsValue := .undef
  schema : Schema
  temperature : Option Int := none
  maxTokens : Option Nat := none
  cache : Option CachePolicy := none
  timeoutMs : Option Nat := none
  retry : Option Nat := none
  fallback : Option FallbackSpec := none
  providerOptions : Option JsValue := none

/-- The per-call context shared by the attempts of one `executeAI` call. -/
structure AttemptCtx : Type where
  schema : Schema
  prompt : String
  input : JsValue
  cacheKey : Option String
  sessionCaching : Bool
  now : Nat

/-- The inner `attemptExecution` closure of `executeAI`: on adapter success,
validate (`safeParse`), resolve tokens, build the fresh result and write it
to the session cache when enabled; on failure, re-throw `AIError`s and wrap
other exceptions as `provider_error`; when the deadline fired before the
adapter settled, `controller.signal.aborted` is `true` in the `catch` block
and the failure is thrown as `timeout` regardless of the underlying
error.  A `validation_error` can only be thrown after the adapter settled in
time, so the aborted check never reclassifies it. -/
def attemptExecution (ctx : AttemptCtx) (outcome : AdapterOutcome)
    (cache : SessionCache) : Except AIErrorV ExecutionResult × SessionCache :=
  match outcome with
  | .success d tok =>
    match safeParse ctx.schema d with
    | none => (.error ⟨"Provider returned invalid shape", .validation_error⟩, cache)
    | some validated =>
      let tokens := resolveTokens tok ctx.prompt ctx.input
      let finalResult : ExecutionResult :=
        { data := validated, tokens := tokens, fromCache := false }
      match ctx.cacheKey, ctx.sessionCaching with
      | some k, true => (.ok finalResult, setSessionCache k finalResult ctx.now cache)
      | _, _ => (.ok finalResult, cache)
  | .failure (.ai e) => (.error e, cache)
  | .failure (.other _) => (.error ⟨"Provider execution failed", .provider_error⟩, cache)
  | .timedOut _ => (.error ⟨"AI call timed out", .timeout⟩, cache)

/-- The retry loop of `executeAI`
(`for (attempt = 0; attempt <= retry; attempt++)`), called with
`remaining = retry + 1`.  Every caught error is recorded and retried until
attempts run out — the loop inspects no error kind.  The `remaining = 0`
base case is unreachable (it mirrors the post-loop
`throw new AIError("AI execution failed", "provider_error", lastError)`,
itself unreachable because `attemptExecution` always throws an `AIError`). -/
def attemptLoop (ctx : AttemptCtx) (outcomes : Nat → AdapterOutcome) :
    Nat → Nat → SessionCache → Except AIErrorV ExecutionResult × SessionCache
  | 0, _, cache => (.error ⟨"AI execution failed", .provider_error⟩, cache)
  | remaining+1, idx, cache =>
    match attemptExecution ctx (outcomes idx) cache with
    | (.ok r, cache') => (.ok r, cache')
    | (.error e, cache') =>
      if remaining = 0 then (.error e, cache')
      else attemptLoop ctx outcomes remaining (idx+1) cache'

/-- `executeAI` (src/core/execution.ts): sanitize, apply defaults
(`temperature 0`, `retry 1`, cache policy `"session"`), compute the cache
key when caching is on (the source also passes `temperature`, `maxTokens`
and `providerOptions` to `buildCacheKey`, whose parameter type has only
`prompt`/`input`/`schema`, so they are dropped), short-circuit on a session
cache hit with `tokens` forced to `0` and `fromCache` to `true`, otherwise
run up to `retry + 1` attempts; on exhaustion resolve the fallback if one
was supplied (marking the result `usedFallback` with the last error's
message) or re-raise the last error. -/
def executeAI (sanP : String → String) (sanI : JsValue → JsValue)
    (args : RequestArgs) (adapter : AdapterFn) (cache : SessionCache)
    (now : Nat) : Except AIErrorV ExecutionResult × SessionCache :=
  let prompt := sanP args.prompt
  let input := sanI args.input
  let temperature := args.temperature.getD 0
  let retry := args.retry.getD 1
  let cachePolicy := args.cache.getD .session
  let cacheKey : Option String :=
    match cachePolicy with
    | .disabled => none
    | .session => some (buildCacheKey prompt input args.schema)
  let ctx : AttemptCtx :=
    ⟨args.schema, prompt, input, cacheKey, cachePolicy = .session, now⟩
  let outcomes : Nat → AdapterOutcome :=
    adapter ⟨prompt, input, args.schema, temperature, args.maxTokens,
      args.providerOptions⟩
  let run : Unit → Except AIErrorV ExecutionResult × SessionCache := fun _ =>
    match attemptLoop ctx outcomes (retry + 1) 0 cache with
    | (.ok r, cache') => (.ok r, cache')
    | (.error e, cache') =>
      match args.fallback with
      | some fb =>
        (.ok { data := resolveFallback fb, tokens := 0, fromCache := false,
               usedFallback := true, fallbackReason := some e.message }, cache')
      | none => (.error e, cache')
  match cacheKey, cachePolicy with
  | some k, .session =>
    match getFromSessionCache k cache with
    | some cached => (.ok { cached with tokens := 0, fromCache := true }, cache)
    | none => run ()
  | _, _ => run ()

/-! ### The streaming execution engine (src/core/streamExecution.ts)

`executeAIStream` mirrors `executeAI` without the session cache, plus: a
pre-flight capability check (`configuration` error when the provider does
not support streaming), a caller-supplied abort signal combined with the
per-attempt deadline signal (`combineAbortSignals`), and a check
`if (signal?.aborted) break` after a failed attempt that stops retrying on
caller-initiated cancellation.  The caller signal is modelled by its
aborted state as observed at that post-attempt check of each attempt index.
A caller abort during an attempt makes the adapter reject while the
engine's own deadline controller is still unaborted, which is an ordinary
`failure` outcome (the `catch` block tests `controller.signal.aborted`,
i.e. the deadline controller only, before wrapping).  Chunk delivery
(`onChunk`) happens inside `provider.executeStream` and is not observed by
the retry logic, so it is not part of the model.  The fixed 500 ms
inter-retry delay has no observable effect. -/

/-- A streaming provider: its `supportsStreaming` flag and optional
`executeStream` capability (both are tested by the pre-flight check). -/
structure StreamProviderV : Type where
  name : String
  supportsStreaming : Bool
  executeStream : Option (ExecArgs → Nat → AdapterOutcome)

/-- The options record of `executeAIStream` (`StreamExecutionArgs` minus
`provider` and `onChunk`).  `signal` is the caller-supplied abort signal,
as its aborted state at the post-attempt check of each attempt index. -/
structure StreamRequestArgs : Type where
  prompt : String
  input : JsValue := .undef
  schema : Schema
  temperature : Option Int := none
  maxTokens : Option Nat := none
  timeoutMs : Option Nat := none
  retry : Option Nat := none
  fallback : Option FallbackSpec := none
  providerOptions : Option JsValue := none
  signal : Option (Nat → Bool) := none

/-- The inner `attemptExecution` closure of `executeAIStream`: validate the
final streamed result, resolve tokens; re-throw `AIError`s, wrap other
rejections as `provider_error`, and classify a fired deadline as `timeout`
(the `catch` tests `controller.signal.aborted` — the deadline controller,
not the combined signal). -/
def attemptExecutionStream (schema : Schema) (prompt : String) (input : JsValue)
    (outcome : AdapterOutcome) : Except AIErrorV ExecutionResult :=
  match outcome with
  | .success d tok =>
    match safeParse schema d with
    | none => .error ⟨"Stream returned invalid schema", .validation_error⟩
    | some validated =>
      .ok { data := validated, tokens := resolveTokens tok prompt input,
            fromCache := false }
  | .failure (.ai e) => .error e
  | .failure (.other _) => .error ⟨"Stream execution failed", .provider_error⟩
  | .timedOut _ => .error ⟨"Stream timed out", .timeout⟩

/-- The retry loop of `executeAIStream`, called with
`remaining = retry + 1`: after a failed attempt, stop without retrying if
the caller signal is aborted (`if (signal?.aborted) break`), else stop when
attempts are exhausted, else retry.  The `remaining = 0` base case mirrors
the unreachable post-loop
`throw new AIError("Stream failed after retries", "provider_error", ...)`. -/
def streamLoop (schema : Schema) (prompt : String) (input : JsValue)
    (outcomes : Nat → AdapterOutcome) (callerAborted : Nat → Bool) :
    Nat → Nat → Except AIErrorV ExecutionResult
  | 0, _ => .error ⟨"Stream failed after retries", .provider_error⟩
  | remaining+1, idx =>
    match attemptExecutionStream schema prompt input (outcomes idx) with
    | .ok r => .ok r
    | .error e =>
      if callerAborted idx then .error e
      else if remaining = 0 then .error e
      else streamLoop schema prompt input outcomes callerAborted remaining (idx+1)

/-- `executeAIStream` (src/core/streamExecution.ts): sanitize, apply
defaults, fail with `configuration` when the provider lacks streaming
support (`!provider.supportsStreaming || !provider.executeStream`, checked
before any attempt; the `if (!provider)` guard is unreachable since
`provider` is a required argument), then run the retry loop; on exhaustion
resolve the fallback or re-raise the last error. -/
def executeAIStream (sanP : String → String) (sanI : JsValue → JsValue)
    (args : StreamRequestArgs) (provider : StreamProviderV) :
    Except AIErrorV ExecutionResult :=
  let prompt := sanP args.prompt
  let input := sanI args.input
  let temperature := args.temperature.getD 0
  let retry := args.retry.getD 1
  match provider.executeStream, provider.supportsStreaming with
  | some es, true =>
    let outcomes : Nat → AdapterOutcome :=
      es ⟨prompt, input, args.schema, temperature, args.maxTokens,
        args.providerOptions⟩
    let callerAborted : Nat → Bool := fun idx =>
      (args.signal.map (fun f => f idx)).getD false
    match streamLoop args.schema prompt input outcomes callerAborted (retry + 1) 0 with
    | .ok r => .ok r
    | .error e =>
      match args.fallback with
      | some fb =>
        .ok { data := resolveFallback fb, tokens := 0, fromCache := false,
              usedFallback := true, fallbackReason := some e.message }
      | none => .error e
  | _, _ =>
    .error ⟨"Provider \"" ++ provider.name ++ "\" does not support streaming",
      .configuration⟩

/-! ### Equality up to object-key insertion order

`PermEq a b` says the values `a` and `b` are equal up to reordering of
object fields, at any depth.  The `obj` constructor first relates the
fields pointwise (equal keys, `PermEq` values) to an intermediate field
list and then permutes; JavaScript objects have pairwise-distinct keys, so
that is required of the left-hand object's keys. -/

mutual
/-- Equality of values up to object-key insertion order. -/
inductive PermEq : JsValue → JsValue → Prop where
  | null : PermEq .null .null
  | undef : PermEq .undef .undef
  | func : PermEq .func .func
  | bool (b : Bool) : PermEq (.bool b) (.bool b)
  | num (n : Int) : PermEq (.num n) (.num n)
  | str (s : String) : PermEq (.str s) (.str s)
  | arr {xs ys : JsList} (h : PermEqList xs ys) : PermEq (.arr xs) (.arr ys)
  | obj {fs mids gs : JsFields}
      (h₁ : PermEqFields fs mids)
      (h₂ : mids.toList.Perm gs.toList)
      (hn : (fs.toList.map Prod.fst).Nodup) :
      PermEq (.obj fs) (.obj gs)

/-- Element-wise `PermEq` on array elements. -/
inductive PermEqList : JsList → JsList → Prop where
  | nil : PermEqList .nil .nil
  | cons {x y : JsValue} {xs ys : JsList} (h : PermEq x y)
      (t : PermEqList xs ys) : PermEqList (.cons x xs) (.cons y ys)

/-- Field-wise `PermEq` on object fields (same keys in the same order,
`PermEq` values). -/
inductive PermEqFields : JsFields → JsFields → Prop where
  | nil : PermEqFields .nil .nil
  | cons (k : String) {v w : JsValue} {fs gs : JsFields} (h : PermEq v w)
      (t : PermEqFields fs gs) : PermEqFields (.cons k v fs) (.cons k w gs)
end

theorem string_data_inj {a b : String} (h : a.data = b.data) : a = b := by
  cases a; cases b; exact congrArg String.mk (by simpa using h)

theorem sorted_fieldLt_of_le_nodup {l : List (String × JsValue)}
    (hs : l.Sorted fieldLe) (hn : (l.map Prod.fst).Nodup) :
    l.Sorted fieldLt := by
  have hne : l.Pairwise (fun p q : String × JsValue => p.1 ≠ q.1) :=
    (List.pairwise_map).mp hn
  refine (hs.and hne).imp ?_
  rintro a b ⟨hle, hne'⟩
  rcases hc : cmpChars a.1.data b.1.data with _ | _ | _
  · exact hc
  · rw [cmpChars_eq_iff] at hc
    exact absurd (string_data_inj hc) hne'
  · exact absurd hc hle

/-- Sorting by key is invariant under permutation of a field list with
pairwise-distinct keys. -/
theorem insertionSort_eq_of_perm_nodupKeys {F G : List (String × JsValue)}
    (hp : F.Perm G) (hn : (F.map Prod.fst).Nodup) :
    List.insertionSort fieldLe F = List.insertionSort fieldLe G := by
  have hpermF : (List.insertionSort fieldLe F).Perm F :=
    List.perm_insertionSort fieldLe F
  have hpermG : (List.insertionSort fieldLe G).Perm G :=
    List.perm_insertionSort fieldLe G
  have hnF : ((List.insertionSort fieldLe F).map Prod.fst).Nodup :=
    ((hpermF.map Prod.fst).nodup_iff).mpr hn
  have hnG' : (G.map Prod.fst).Nodup := ((hp.map Prod.fst).nodup_iff).mp hn
  have hnG : ((List.insertionSort fieldLe G).map Prod.fst).Nodup :=
    ((hpermG.map Prod.fst).nodup_iff).mpr hnG'
  have hsF : (List.insertionSort fieldLe F).Sorted fieldLt :=
    sorted_fieldLt_of_le_nodup (List.sorted_insertionSort fieldLe F) hnF
  have hsG : (List.insertionSort fieldLe G).Sorted fieldLt :=
    sorted_fieldLt_of_le_nodup (List.sorted_insertionSort fieldLe G) hnG
  exact List.eq_of_perm_of_sorted (hpermF.trans (hp.trans hpermG.symm)) hsF hsG

theorem permEqFields_keys : ∀ {fs gs : JsFields}, PermEqFields fs gs →
    fs.toList.map Prod.fst = gs.toList.map Prod.fst
  | _, _, .nil => rfl
  | _, _, .cons k h t => by
      simp [JsFields.toList, permEqFields_keys t]

mutual
theorem serialize_permEq : ∀ {a b : JsValue}, PermEq a b →
    serialize a = serialize b
  | _, _, .null => rfl
  | _, _, .undef => rfl
  | _, _, .func => rfl
  | _, _, .bool _ => rfl
  | _, _, .num _ => rfl
  | _, _, .str _ => rfl
  | _, _, .arr h => by
      simp only [serialize]
      rw [serializeList_permEq h]
  | _, _, @PermEq.obj fs mids gs h₁ h₂ hn => by
      simp only [serialize]
      have hmid : serializeFields fs = serializeFields mids :=
        serializeFields_permEq h₁
      have hkeys : mids.toList.map Prod.fst = fs.toList.map Prod.fst :=
        (permEqFields_keys h₁).symm
      rw [hmid]
      refine congrArg JsValue.obj (congrArg JsFields.ofList ?_)
      apply insertionSort_eq_of_perm_nodupKeys
      · rw [serializeFields_toList, serializeFields_toList]
        exact (h₂.map _).filter _
      · rw [serializeFields_toList]
        have hsub : ((mids.toList.map (fun p => (p.1, serialize p.2))).filter
            (fun p => !p.2.isUndef)).Sublist
            (mids.toList.map (fun p => (p.1, serialize p.2))) :=
          List.filter_sublist _
        have hsubm := hsub.map Prod.fst
        apply List.Nodup.sublist hsubm
        have : (mids.toList.map (fun p => (p.1, serialize p.2))).map Prod.fst =
            mids.toList.map Prod.fst := by
          rw [List.map_map]; rfl
        rw [this, hkeys]
        exact hn

theorem serializeList_permEq : ∀ {xs ys : JsList}, PermEqList xs ys →
    serializeList xs = serializeList ys
  | _, _, .nil => rfl
  | _, _, .cons h t => by
      simp only [serializeList]
      rw [serialize_permEq h, serializeList_permEq t]

theorem serializeFields_permEq : ∀ {fs gs : JsFields}, PermEqFields fs gs →
    serializeFields fs = serializeFields gs
  | _, _, .nil => rfl
  | _, _, .cons k h t => by
      simp only [serializeFields]
      rw [serialize_permEq h, serializeFields_permEq t]
end

/-! ### Helper lemmas about the attempt loop -/

/-- Whether an attempt with the given adapter outcome fails (independent of
the cache state): the adapter failed, the deadline fired, or the returned
data does not validate against the schema. -/
def attemptFails (schema : Schema) : AdapterOutcome → Prop
  | .success d _ => safeParse schema d = none
  | .failure _ => True
  | .timedOut _ => True

/-- The normalized `AIError` thrown by a failing attempt of `executeAI`
(see `attemptExecution`). -/
def normalizedAttemptError : AdapterOutcome → AIErrorV
  | .success _ _ => ⟨"Provider returned invalid shape", .validation_error⟩
  | .failure (.ai e) => e
  | .failure (.other _) => ⟨"Provider execution failed", .provider_error⟩
  | .timedOut _ => ⟨"AI call timed out", .timeout⟩

theorem attemptExecution_fails {ctx : AttemptCtx} {o : AdapterOutcome}
    (cache : SessionCache) (h : attemptFails ctx.schema o) :
    attemptExecution ctx o cache = (.error (normalizedAttemptError o), cache) := by
  cases o with
  | success d tok =>
    simp only [attemptFails] at h
    simp [attemptExecution, normalizedAttemptError, h]
  | failure err => cases err <;> rfl
  | timedOut err => rfl

theorem attemptExecution_error_cache {ctx : AttemptCtx} {o : AdapterOutcome}
    {cache cache' : SessionCache} {e : AIErrorV}
    (h : attemptExecution ctx o cache = (.error e, cache')) : cache' = cache := by
  cases o with
  | success d tok =>
    rcases hv : safeParse ctx.schema d with _ | v
    · simp only [attemptExecution, hv] at h
      injection h with h1 h2
      exact h2.symm
    · simp only [attemptExecution, hv] at h
      rcases hk : ctx.cacheKey with _ | k <;> rcases hc : ctx.sessionCaching with _ | _ <;>
          simp only [hk, hc] at h <;> injection h with h1 h2 <;> exact absurd h1 (by simp)
  | failure err =>
    cases err <;> simp only [attemptExecution] at h <;> injection h with h1 h2 <;>
      exact h2.symm
  | timedOut err =>
    simp only [attemptExecution] at h
    injection h with h1 h2
    exact h2.symm

theorem attemptLoop_all_fail (ctx : AttemptCtx) (outcomes : Nat → AdapterOutcome) :
    ∀ (remaining idx : Nat) (cache : SessionCache), 0 < remaining →
    (∀ j, j < remaining → attemptFails ctx.schema (outcomes (idx + j))) →
    attemptLoop ctx outcomes remaining idx cache =
      (.error (normalizedAttemptError (outcomes (idx + (remaining - 1)))), cache) := by
  intro remaining
  induction remaining with
  | zero => intro idx cache h; omega
  | succ r ih =>
    intro idx cache _ hfail
    have h0 := hfail 0 (by omega)
    rw [Nat.add_zero] at h0
    simp only [attemptLoop, attemptExecution_fails cache h0]
    by_cases hr : r = 0
    · subst hr
      simp
    · simp only [hr, if_false]
      have hrec := ih (idx + 1) cache (by omega) (fun j hj => by
        have := hfail (j + 1) (by omega)
        rwa [show idx + (j + 1) = idx + 1 + j by omega] at this)
      rw [show idx + 1 + (r - 1) = idx + (r + 1 - 1) by omega] at hrec
      exact hrec

theorem attemptLoop_success_at (ctx : AttemptCtx) (outcomes : Nat → AdapterOutcome) :
    ∀ (k remaining idx : Nat) (cache cache' : SessionCache)
      (r : ExecutionResult), k < remaining →
    (∀ j, j < k → attemptFails ctx.schema (outcomes (idx + j))) →
    attemptExecution ctx (outcomes (idx + k)) cache = (.ok r, cache') →
    attemptLoop ctx outcomes remaining idx cache = (.ok r, cache') := by
  intro k
  induction k with
  | zero =>
    intro remaining idx cache cache' r hk _ hsucc
    obtain ⟨m, rfl⟩ : ∃ m, remaining = m + 1 := ⟨remaining - 1, by omega⟩
    rw [Nat.add_zero] at hsucc
    simp [attemptLoop, hsucc]
  | succ k' ih =>
    intro remaining idx cache cache' r hk hfail hsucc
    obtain ⟨m, rfl⟩ : ∃ m, remaining = m + 1 := ⟨remaining - 1, by omega⟩
    have h0 := hfail 0 (by omega)
    rw [Nat.add_zero] at h0
    have hm : ¬ m = 0 := by omega
    simp only [attemptLoop, attemptExecution_fails cache h0, hm, if_false]
    apply ih m (idx + 1) cache cache' r (by omega)
    · intro j hj
      have := hfail (j + 1) (by omega)
      rwa [show idx + (j + 1) = idx + 1 + j by omega] at this
    · rwa [show idx + 1 + k' = idx + (k' + 1) by omega]

theorem attemptLoop_cache_write (ctx : AttemptCtx) (outcomes : Nat → AdapterOutcome) :
    ∀ (remaining idx : Nat) (cache cache' : SessionCache)
      (res : Except AIErrorV ExecutionResult),
    attemptLoop ctx outcomes remaining idx cache = (res, cache') →
    cache' = cache ∨
      ∃ r, res = .ok r ∧ r.fromCache = false ∧ r.usedFallback = false ∧
        ∃ k, ctx.cacheKey = some k ∧ ctx.sessionCaching = true ∧
          cache' = setSessionCache k r ctx.now cache := by
  intro remaining
  induction remaining with
  | zero =>
    intro idx cache cache' res h
    simp only [attemptLoop] at h
    injection h with h1 h2
    exact Or.inl h2.symm
  | succ m ih =>
    intro idx cache cache' res h
    simp only [attemptLoop] at h
    rcases hA : attemptExecution ctx (outcomes idx) cache with ⟨res0, cache0⟩
    rw [hA] at h
    rcases res0 with e | r0
    · -- failed attempt: cache untouched, loop continues or stops
      have hc0 : cache0 = cache := attemptExecution_error_cache hA
      by_cases hm : m = 0
      · subst hm
        simp only [if_pos rfl] at h
        injection h with h1 h2
        exact Or.inl (by rw [← h2, hc0])
      · simp only [hm, if_false] at h
        rw [hc0] at h
        exact ih (idx + 1) cache cache' res h
    · -- successful attempt: characterize the write via attemptExecution
      injection h with h1 h2
      subst h1
      subst h2
      cases houtcome : outcomes idx with
      | success d tok =>
        rw [houtcome] at hA
        rcases hv : safeParse ctx.schema d with _ | v
        · simp [attemptExecution, hv] at hA
        · simp only [attemptExecution, hv] at hA
          rcases hk : ctx.cacheKey with _ | k <;>
            rcases hs : ctx.sessionCaching with _ | _ <;>
            simp only [hk, hs] at hA <;> injection hA with hA1 hA2
          · exact Or.inl hA2.symm
          · exact Or.inl hA2.symm
          · exact Or.inl hA2.symm
          · injection hA1 with hA1'
            refine Or.inr ⟨r0, rfl, ?_, ?_, k, rfl, rfl, ?_⟩
            · rw [← hA1']
            · rw [← hA1']
            · rw [← hA2, ← hA1']
      | failure err =>
        rw [houtcome] at hA
        cases err <;> simp [attemptExecution] at hA
      | timedOut err =>
        rw [houtcome] at hA
        simp [attemptExecution] at hA

/-! ### Claim theorems -/

/-- C4: for every attempt of the execution engine in which the per-attempt
deadline fires before the adapter settles (`AdapterOutcome.timedOut`), the
attempt's failure is classified as `timeout` — never `provider_error` —
regardless of the underlying adapter error. -/
theorem attemptExecution_deadline_timeout :
    ∀ (ctx : AttemptCtx) (err : Thrown) (cache : SessionCache),
      attemptExecution ctx (.timedOut err) cache =
        (.error ⟨"AI call timed out", .timeout⟩, cache) ∧
      ErrorCode.timeout ≠ ErrorCode.provider_error :=
  fun _ _ _ => ⟨rfl, by decide⟩

/-- C5 counterexample: on the spec's quirk-tolerance input
`'{"data":"42"}\nNote: approximate'`, a plain string schema accepts the
trimmed raw text directly (step 1 of `parseAndValidateResponse`), so the
normalized value is the whole raw text, not `"42"`. -/
theorem parseAndValidateResponse_plain_string_cex :
    parseAndValidateResponse (.str "\x7b\"data\":\"42\"\x7d\nNote: approximate")
      (.str none none) true "Local provider" =
      .ok (.str "\x7b\"data\":\"42\"\x7d\nNote: approximate") ∧
    (.ok (.str "\x7b\"data\":\"42\"\x7d\nNote: approximate") :
        Except AIErrorV JsValue) ≠ .ok (.str "42") := by
  constructor
  · rfl
  · intro h
    injection h with h1
    injection h1 with h2
    exact absurd h2 (by decide)

/-- C5 amended: on the quirk input, a plain string schema yields the whole
trimmed raw text (raw-first validation succeeds); the `"42"` extraction
happens exactly when the direct validation fails, e.g. for a length-bounded
string schema (`z.string().max(5)`), where the JSON object is recovered
from the prefix and its single wrapper key is unwrapped. -/
theorem parseAndValidateResponse_quirk_amended :
    parseAndValidateResponse (.str "\x7b\"data\":\"42\"\x7d\nNote: approximate")
      (.str none none) true "Local provider" =
      .ok (.str "\x7b\"data\":\"42\"\x7d\nNote: approximate") ∧
    parseAndValidateResponse (.str "\x7b\"data\":\"42\"\x7d\nNote: approximate")
      (.str none (some 5)) true "Local provider" = .ok (.str "42") :=
  ⟨rfl, rfl⟩

/-- C2 (code bug in `buildCacheKey`): `executeAI` passes `temperature`,
`maxTokens` and `providerOptions` to `buildCacheKey`, but `buildCacheKey`'s
parameter type has only `prompt`/`input`/`schema`, so the fingerprint
ignores them: a request at temperature `1` is served the cached result of
the identical request at temperature `0` (even though the adapter would
have returned different data). -/
theorem executeAI_fingerprint_ignores_temperature :
    executeAI id id
      { prompt := "Summarize", schema := .str none none, temperature := some 0 }
      (fun _ _ => .success (.str "ok") (some 5)) [] 7 =
      (.ok { data := .str "ok", tokens := 5, fromCache := false },
       [("Summarize::::ZodString",
         ⟨{ data := .str "ok", tokens := 5, fromCache := false }, 7⟩)]) ∧
    executeAI id id
      { prompt := "Summarize", schema := .str none none, temperature := some 1 }
      (fun _ _ => .success (.str "different") (some 9))
      [("Summarize::::ZodString",
        ⟨{ data := .str "ok", tokens := 5, fromCache := false }, 7⟩)] 8 =
      (.ok { data := .str "ok", tokens := 0, fromCache := true },
       [("Summarize::::ZodString",
         ⟨{ data := .str "ok", tokens := 5, fromCache := false }, 7⟩)]) :=
  ⟨rfl, rfl⟩

/-- C9: the cache key depends on the schema only through its description
or, failing that, its top-level type name; two structurally different
object schemas without descriptions collide, and a request with the second
schema is served the cached result stored under the first. -/
theorem buildCacheKey_schema_identity_collision :
    (∀ (prompt : String) (input : JsValue) (s₁ s₂ : Schema),
       s₁.description = s₂.description → s₁.typeName = s₂.typeName →
       buildCacheKey prompt input s₁ = buildCacheKey prompt input s₂) ∧
    ((Schema.obj none (.cons "a" (.str none none) .nil)).description = none ∧
     (Schema.obj none (.cons "b" (.num none) .nil)).description = none ∧
     Schema.obj none (.cons "a" (.str none none) .nil) ≠
       Schema.obj none (.cons "b" (.num none) .nil) ∧
     buildCacheKey "t" .undef (.obj none (.cons "a" (.str none none) .nil)) =
       buildCacheKey "t" .undef (.obj none (.cons "b" (.num none) .nil))) ∧
    executeAI id id
      { prompt := "t", schema := .obj none (.cons "b" (.num none) .nil) }
      (fun _ _ => .failure (.ai ⟨"no provider", .provider_error⟩))
      [("t::::ZodObject",
        ⟨{ data := .obj (.cons "a" (.str "s") .nil), tokens := 3,
           fromCache := false }, 5⟩)] 6 =
      (.ok { data := .obj (.cons "a" (.str "s") .nil), tokens := 0,
             fromCache := true },
       [("t::::ZodObject",
         ⟨{ data := .obj (.cons "a" (.str "s") .nil), tokens := 3,
            fromCache := false }, 5⟩)]) := by
  refine ⟨?_, ⟨rfl, rfl, ?_, rfl⟩, rfl⟩
  · intro prompt input s₁ s₂ hd ht
    unfold buildCacheKey
    rw [hd, ht]
  · intro h
    injection h with hd hf
    injection hf with hk
    exact absurd hk (by decide)

/-- Witness for C9: the universally quantified collision statement applied
to the two concrete object schemas. -/
theorem buildCacheKey_schema_identity_collision_witness :
    buildCacheKey "t" (.num 3) (.obj none (.cons "a" (.str none none) .nil)) =
      buildCacheKey "t" (.num 3) (.obj none (.cons "b" (.num none) .nil)) :=
  buildCacheKey_schema_identity_collision.1 "t" (.num 3)
    (.obj none (.cons "a" (.str none none) .nil))
    (.obj none (.cons "b" (.num none) .nil)) rfl rfl

theorem streamLoop_abort {schema : Schema} {prompt : String} {input : JsValue}
    {outcomes : Nat → AdapterOutcome} {aborted : Nat → Bool}
    (remaining idx : Nat) {e : AIErrorV}
    (hfail : attemptExecutionStream schema prompt input (outcomes idx) = .error e)
    (habort : aborted idx = true) :
    streamLoop schema prompt input outcomes aborted (remaining + 1) idx = .error e := by
  simp [streamLoop, hfail, habort]

/-- C8: in the streaming engine, when the caller-supplied signal is aborted
(as opposed to the engine's own deadline firing), no further retry attempt
is made after the failed attempt: the loop stops at that attempt's error
for any number of remaining retries, and `executeAIStream` surfaces that
attempt's error (or the fallback) without consulting any later attempt. -/
theorem executeAIStream_caller_abort_stops_retries :
    (∀ (schema : Schema) (prompt : String) (input : JsValue)
       (outcomes : Nat → AdapterOutcome) (aborted : Nat → Bool)
       (remaining idx : Nat) (e : AIErrorV),
       attemptExecutionStream schema prompt input (outcomes idx) = .error e →
       aborted idx = true →
       streamLoop schema prompt input outcomes aborted (remaining + 1) idx =
         .error e) ∧
    (∀ (sanP : String → String) (sanI : JsValue → JsValue)
       (args : StreamRequestArgs) (name : String)
       (es : ExecArgs → Nat → AdapterOutcome) (f : Nat → Bool) (e : AIErrorV),
       args.signal = some f → f 0 = true → args.fallback = none →
       attemptExecutionStream args.schema (sanP args.prompt) (sanI args.input)
         (es ⟨sanP args.prompt, sanI args.input, args.schema,
           args.temperature.getD 0, args.maxTokens, args.providerOptions⟩ 0) =
         .error e →
       executeAIStream sanP sanI args ⟨name, true, some es⟩ = .error e) := by
  constructor
  · intro schema prompt input outcomes aborted remaining idx e hfail habort
    exact streamLoop_abort remaining idx hfail habort
  · intro sanP sanI args name es f e hsig hab hfb hfail
    simp only [executeAIStream]
    rw [streamLoop_abort (args.retry.getD 1) 0 hfail (by simp [hsig, hab]), hfb]

/-- C6 counterexample: an adapter-thrown `configuration` error is retried by
the engine's loop (the loop inspects no error kind): with `retry = 1`, an
adapter failing attempt 0 with a `configuration` `AIError` and succeeding at
attempt 1 yields the attempt-1 success — had the engine stopped after the
configuration failure, the call (with no fallback) would have surfaced that
configuration error instead. -/
theorem executeAI_configuration_retried_cex :
    executeAI id id
      { prompt := "p", schema := .str none none, cache := some .disabled,
        retry := some 1 }
      (fun _ i => if i = 0 then .failure (.ai ⟨"Missing API key", .configuration⟩)
        else .success (.str "ok") (some 3)) [] 0 =
      (.ok { data := .str "ok", tokens := 3, fromCache := false }, []) ∧
    ((.ok { data := .str "ok", tokens := 3, fromCache := false }, ([] : SessionCache)) :
        Except AIErrorV ExecutionResult × SessionCache) ≠
      (.error ⟨"Missing API key", .configuration⟩, ([] : SessionCache)) := by
  refine ⟨rfl, ?_⟩
  intro h
  injection h with h1 h2
  exact absurd h1 (by simp)

/-- C6 amended: the retry loop retries failed attempts of any kind —
`provider_error`, `timeout` and `validation_error` as the spec says, but
also an adapter-thrown `configuration` error — up to the configured retry
count; only the engines' own pre-flight configuration errors (raised before
the loop, e.g. a streaming call on a non-streaming provider) cause no
attempt at all. -/
theorem executeAI_retries_until_success :
    ∀ (sanP : String → String) (sanI : JsValue → JsValue) (args : RequestArgs)
      (adapter : AdapterFn) (cache : SessionCache) (now k : Nat)
      (d : JsValue) (tok : Option Nat) (v : JsValue),
      args.cache.getD .session = .disabled →
      k ≤ args.retry.getD 1 →
      (∀ j, j < k → attemptFails args.schema
        (adapter ⟨sanP args.prompt, sanI args.input, args.schema,
          args.temperature.getD 0, args.maxTokens, args.providerOptions⟩ j)) →
      adapter ⟨sanP args.prompt, sanI args.input, args.schema,
        args.temperature.getD 0, args.maxTokens, args.providerOptions⟩ k =
        .success d tok →
      safeParse args.schema d = some v →
      executeAI sanP sanI args adapter cache now =
        (.ok { data := v,
               tokens := resolveTokens tok (sanP args.prompt) (sanI args.input),
               fromCache := false }, cache) := by
  intro sanP sanI args adapter cache now k d tok v hdis hk hfails hsucc hval
  simp only [executeAI, hdis]
  have hloop := attemptLoop_success_at
    ⟨args.schema, sanP args.prompt, sanI args.input, none,
      decide (CachePolicy.disabled = CachePolicy.session), now⟩
    (adapter ⟨sanP args.prompt, sanI args.input, args.schema,
      args.temperature.getD 0, args.maxTokens, args.providerOptions⟩)
    k (args.retry.getD 1 + 1) 0 cache cache
    { data := v, tokens := resolveTokens tok (sanP args.prompt) (sanI args.input),
      fromCache := false }
    (by omega)
    (by intro j hj; simpa using hfails j hj)
    (by rw [Nat.zero_add, hsucc]; simp [attemptExecution, hval])
  rw [hloop]

/-- C6 amended: the retry loop retries failed attempts of any kind —
`provider_error`, `timeout` and `validation_error` as the spec says, but
also an adapter-thrown `configuration` error — up to the configured retry
count; only the engines' own pre-flight configuration errors (raised before
the loop, e.g. a streaming call on a non-streaming provider) cause no
attempt at all. -/
theorem retry_policy_amended :
    (∀ (sanP : String → String) (sanI : JsValue → JsValue) (args : RequestArgs)
       (adapter : AdapterFn) (cache : SessionCache) (now k : Nat)
       (d : JsValue) (tok : Option Nat) (v : JsValue),
       args.cache.getD .session = .disabled →
       k ≤ args.retry.getD 1 →
       (∀ j, j < k → attemptFails args.schema
         (adapter ⟨sanP args.prompt, sanI args.input, args.schema,
           args.temperature.getD 0, args.maxTokens, args.providerOptions⟩ j)) →
       adapter ⟨sanP args.prompt, sanI args.input, args.schema,
         args.temperature.getD 0, args.maxTokens, args.providerOptions⟩ k =
         .success d tok →
       safeParse args.schema d = some v →
       executeAI sanP sanI args adapter cache now =
         (.ok { data := v,
                tokens := resolveTokens tok (sanP args.prompt) (sanI args.input),
                fromCache := false }, cache)) ∧
    (∀ (sanP : String → String) (sanI : JsValue → JsValue)
       (args : StreamRequestArgs) (name : String)
       (es es' : ExecArgs → Nat → AdapterOutcome),
       executeAIStream sanP sanI args ⟨name, false, some es⟩ =
         .error ⟨"Provider \"" ++ name ++ "\" does not support streaming",
           .configuration⟩ ∧
       executeAIStream sanP sanI args ⟨name, false, some es⟩ =
         executeAIStream sanP sanI args ⟨name, false, some es'⟩ ∧
       executeAIStream sanP sanI args ⟨name, true, none⟩ =
         .error ⟨"Provider \"" ++ name ++ "\" does not support streaming",
           .configuration⟩) ∧
    (∀ (sanP : String → String) (sanI : JsValue → JsValue) (args : RequestArgs)
       (adapter : AdapterFn) (cache : SessionCache) (now : Nat) (m : String)
       (d : JsValue) (tok : Option Nat) (v : JsValue),
       args.cache.getD .session = .disabled →
       1 ≤ args.retry.getD 1 →
       adapter ⟨sanP args.prompt, sanI args.input, args.schema,
         args.temperature.getD 0, args.maxTokens, args.providerOptions⟩ 0 =
         .failure (.ai ⟨m, .configuration⟩) →
       adapter ⟨sanP args.prompt, sanI args.input, args.schema,
         args.temperature.getD 0, args.maxTokens, args.providerOptions⟩ 1 =
         .success d tok →
       safeParse args.schema d = some v →
       executeAI sanP sanI args adapter cache now =
         (.ok { data := v,
                tokens := resolveTokens tok (sanP args.prompt) (sanI args.input),
                fromCache := false }, cache)) := by
  refine ⟨executeAI_retries_until_success, ?_, ?_⟩
  · intro sanP sanI args name es es'
    exact ⟨rfl, rfl, rfl⟩
  · intro sanP sanI args adapter cache now m d tok v hdis hr h0 h1 hval
    exact executeAI_retries_until_success sanP sanI args adapter cache now 1 d tok v
      hdis hr (by intro j hj; interval_cases j; rw [h0]; trivial) h1 hval

/-- Witness for C6 (amended): the retry-until-success statement applied to
a concrete request whose attempt 0 fails with a `provider_error` and whose
attempt 1 succeeds. -/
theorem retry_policy_amended_witness :
    executeAI id id
      { prompt := "w", schema := .bool none, cache := some .disabled }
      (fun _ i => if i = 0 then .failure (.ai ⟨"oops", .provider_error⟩)
        else .success (.bool true) (some 2)) [] 4 =
      (.ok { data := .bool true, tokens := 2, fromCache := false }, []) :=
  retry_policy_amended.1 id id
    { prompt := "w", schema := .bool none, cache := some .disabled }
    (fun _ i => if i = 0 then .failure (.ai ⟨"oops", .provider_error⟩)
      else .success (.bool true) (some 2)) [] 4 1 (.bool true) (some 2) (.bool true)
    rfl (by decide) (by intro j hj; interval_cases j; exact trivial) rfl rfl

/-- C3: when all `retry + 1` attempts of `executeAI` fail and a fallback
was supplied, the result is the resolved fallback (invoked if it is a
function) with `usedFallback = true` and `fallbackReason` equal to the last
normalized error's message; the engine's own normalized messages are
nonempty literals, so the reason can be empty only if the adapter itself
threw an `AIError` with an empty message; with no fallback the last
normalized error is raised to the caller. -/
theorem executeAI_fallback_on_exhaustion :
    ∀ (sanP : String → String) (sanI : JsValue → JsValue) (args : RequestArgs)
      (adapter : AdapterFn) (cache : SessionCache) (now : Nat),
    (args.cache.getD .session = .disabled ∨
      (args.cache.getD .session = .session ∧
       getFromSessionCache
         (buildCacheKey (sanP args.prompt) (sanI args.input) args.schema) cache =
         none)) →
    (∀ j, j ≤ args.retry.getD 1 → attemptFails args.schema
      (adapter ⟨sanP args.prompt, sanI args.input, args.schema,
        args.temperature.getD 0, args.maxTokens, args.providerOptions⟩ j)) →
    ((∀ fb, args.fallback = some fb →
       executeAI sanP sanI args adapter cache now =
         (.ok { data := resolveFallback fb, tokens := 0, fromCache := false,
                usedFallback := true,
                fallbackReason := some (normalizedAttemptError
                  (adapter ⟨sanP args.prompt, sanI args.input, args.schema,
                    args.temperature.getD 0, args.maxTokens,
                    args.providerOptions⟩ (args.retry.getD 1))).message },
          cache)) ∧
     (args.fallback = none →
       executeAI sanP sanI args adapter cache now =
         (.error (normalizedAttemptError
           (adapter ⟨sanP args.prompt, sanI args.input, args.schema,
             args.temperature.getD 0, args.maxTokens,
             args.providerOptions⟩ (args.retry.getD 1))), cache)) ∧
     (∀ o : AdapterOutcome, (normalizedAttemptError o).message = "" →
       ∃ c, o = .failure (.ai ⟨"", c⟩))) := by
  intro sanP sanI args adapter cache now hnohit hfails
  have hidx : 0 + (args.retry.getD 1 + 1 - 1) = args.retry.getD 1 := by omega
  have hrun : ∀ ck sc,
      attemptLoop
        (⟨args.schema, sanP args.prompt, sanI args.input, ck, sc, now⟩ : AttemptCtx)
        (adapter ⟨sanP args.prompt, sanI args.input, args.schema,
          args.temperature.getD 0, args.maxTokens, args.providerOptions⟩)
        (args.retry.getD 1 + 1) 0 cache =
        (.error (normalizedAttemptError
          (adapter ⟨sanP args.prompt, sanI args.input, args.schema,
            args.temperature.getD 0, args.maxTokens,
            args.providerOptions⟩ (args.retry.getD 1))), cache) := by
    intro ck sc
    have := attemptLoop_all_fail
      ⟨args.schema, sanP args.prompt, sanI args.input, ck, sc, now⟩
      (adapter ⟨sanP args.prompt, sanI args.input, args.schema,
        args.temperature.getD 0, args.maxTokens, args.providerOptions⟩)
      (args.retry.getD 1 + 1) 0 cache (by omega)
      (by intro j hj; simpa using hfails j (by omega))
    rwa [hidx] at this
  refine ⟨?_, ?_, ?_⟩
  · intro fb hfb
    rcases hnohit with hdis | ⟨hses, hmiss⟩
    · simp only [executeAI, hdis]
      rw [hrun, hfb]
    · simp only [executeAI, hses]
      rw [hmiss, hrun, hfb]
  · intro hfb
    rcases hnohit with hdis | ⟨hses, hmiss⟩
    · simp only [executeAI, hdis]
      rw [hrun, hfb]
    · simp only [executeAI, hses]
      rw [hmiss, hrun, hfb]
  · intro o hmsg
    cases o with
    | success d tok =>
      simp only [normalizedAttemptError] at hmsg
      exact absurd hmsg (by decide)
    | failure err =>
      cases err with
      | ai e =>
        refine ⟨e.code, ?_⟩
        simp only [normalizedAttemptError] at hmsg
        cases e
        simp_all
      | other s =>
        simp only [normalizedAttemptError] at hmsg
        exact absurd hmsg (by decide)
    | timedOut err =>
      simp only [normalizedAttemptError] at hmsg
      exact absurd hmsg (by decide)

/-- Witness for C3: a request whose two attempts both fail with a
`provider_error` and whose fallback is the plain value `999` yields
`{data: 999, usedFallback: true, fallbackReason: "boom"}`. -/
theorem executeAI_fallback_on_exhaustion_witness :
    executeAI id id
      { prompt := "x", schema := .num none,
        fallback := some (.value (.num 999)) }
      (fun _ _ => .failure (.ai ⟨"boom", .provider_error⟩)) [] 0 =
      (.ok { data := .num 999, tokens := 0, fromCache := false,
             usedFallback := true, fallbackReason := some "boom" }, []) :=
  (executeAI_fallback_on_exhaustion id id
      { prompt := "x", schema := .num none,
        fallback := some (.value (.num 999)) }
      (fun _ _ => .failure (.ai ⟨"boom", .provider_error⟩)) [] 0
      (Or.inr ⟨rfl, rfl⟩) (fun _ _ => trivial)).1
    (.value (.num 999)) rfl

/-- C1 (amended): with session caching enabled, a request whose fingerprint
is in the session cache returns the stored data with `fromCache = true` and
`tokens = 0` without invoking the provider adapter (the result and cache
are the same for every adapter); a first call with a fresh fingerprint and
a validating adapter success returns `fromCache = false` with `tokens`
equal to the adapter-reported count when one is reported — `resolveTokens`
deliberately keeps a reported `0`, so `tokens > 0` can fail — and otherwise
the always-positive heuristic estimate, and writes the result; the
immediately repeated identical call answers from the cache with identical
data. -/
theorem executeAI_session_cache_semantics :
    ∀ (sanP : String → String) (sanI : JsValue → JsValue) (args : RequestArgs)
      (adapter adapter₂ : AdapterFn) (cache : SessionCache) (now : Nat),
    args.cache.getD .session = .session →
    ((∀ r, getFromSessionCache
        (buildCacheKey (sanP args.prompt) (sanI args.input) args.schema) cache =
        some r →
      executeAI sanP sanI args adapter cache now =
        (.ok { r with tokens := 0, fromCache := true }, cache) ∧
      executeAI sanP sanI args adapter cache now =
        executeAI sanP sanI args adapter₂ cache now) ∧
     (∀ d tok v,
      getFromSessionCache
        (buildCacheKey (sanP args.prompt) (sanI args.input) args.schema) cache =
        none →
      adapter ⟨sanP args.prompt, sanI args.input, args.schema,
        args.temperature.getD 0, args.maxTokens, args.providerOptions⟩ 0 =
        .success d tok →
      safeParse args.schema d = some v →
      executeAI sanP sanI args adapter cache now =
        (.ok { data := v,
               tokens := resolveTokens tok (sanP args.prompt) (sanI args.input),
               fromCache := false },
         setSessionCache
           (buildCacheKey (sanP args.prompt) (sanI args.input) args.schema)
           { data := v,
             tokens := resolveTokens tok (sanP args.prompt) (sanI args.input),
             fromCache := false } now cache) ∧
      ((tok = none → 0 < resolveTokens tok (sanP args.prompt) (sanI args.input)) ∧
       (∀ t, tok = some t →
         resolveTokens tok (sanP args.prompt) (sanI args.input) = t)) ∧
      executeAI sanP sanI args adapter
        (setSessionCache
          (buildCacheKey (sanP args.prompt) (sanI args.input) args.schema)
          { data := v,
            tokens := resolveTokens tok (sanP args.prompt) (sanI args.input),
            fromCache := false } now cache) now =
        (.ok { data := v, tokens := 0, fromCache := true },
         setSessionCache
           (buildCacheKey (sanP args.prompt) (sanI args.input) args.schema)
           { data := v,
             tokens := resolveTokens tok (sanP args.prompt) (sanI args.input),
             fromCache := false } now cache))) := by
  intro sanP sanI args adapter adapter₂ cache now hpol
  constructor
  · intro r hr
    constructor
    · simp only [executeAI, hpol]
      simp only [hr]
    · simp only [executeAI, hpol]
      simp only [hr]
  · intro d tok v hmiss hadapter hval
    have hfresh : executeAI sanP sanI args adapter cache now =
        (.ok { data := v,
               tokens := resolveTokens tok (sanP args.prompt) (sanI args.input),
               fromCache := false },
         setSessionCache
           (buildCacheKey (sanP args.prompt) (sanI args.input) args.schema)
           { data := v,
             tokens := resolveTokens tok (sanP args.prompt) (sanI args.input),
             fromCache := false } now cache) := by
      simp only [executeAI, hpol]
      simp only [hmiss]
      have hloop := attemptLoop_success_at
        ⟨args.schema, sanP args.prompt, sanI args.input,
          some (buildCacheKey (sanP args.prompt) (sanI args.input) args.schema),
          decide True, now⟩
        (adapter ⟨sanP args.prompt, sanI args.input, args.schema,
          args.temperature.getD 0, args.maxTokens, args.providerOptions⟩)
        0 (args.retry.getD 1 + 1) 0 cache
        (setSessionCache
          (buildCacheKey (sanP args.prompt) (sanI args.input) args.schema)
          { data := v,
            tokens := resolveTokens tok (sanP args.prompt) (sanI args.input),
            fromCache := false } now cache)
        { data := v,
          tokens := resolveTokens tok (sanP args.prompt) (sanI args.input),
          fromCache := false }
        (by omega) (by intro j hj; omega)
        (by rw [Nat.add_zero, hadapter]; simp [attemptExecution, hval])
      rw [hloop]
    refine ⟨hfresh, ⟨?_, ?_⟩, ?_⟩
    · rintro rfl
      simp only [resolveTokens, deriveTokens, estimateTokens]
      omega
    · rintro t rfl
      rfl
    · simp only [executeAI, hpol]
      simp only [show getFromSessionCache
          (buildCacheKey (sanP args.prompt) (sanI args.input) args.schema)
          (setSessionCache
            (buildCacheKey (sanP args.prompt) (sanI args.input) args.schema)
            { data := v,
              tokens := resolveTokens tok (sanP args.prompt) (sanI args.input),
              fromCache := false } now cache) =
          some { data := v,
                 tokens := resolveTokens tok (sanP args.prompt) (sanI args.input),
                 fromCache := true } from by
        simp [setSessionCache, getFromSessionCache]]

/-- C1 counterexample: a fresh-fingerprint call whose adapter success
reports a zero token count returns a fresh result with `tokens = 0`
(`resolveTokens` keeps a reported `0`), falsifying the claim's
`tokens > 0` for first calls with a fresh fingerprint. -/
theorem executeAI_fresh_zero_tokens_cex :
    executeAI id id { prompt := "z", schema := .str none none }
      (fun _ _ => .success (.str "ok") (some 0)) [] 1 =
      (.ok { data := .str "ok", tokens := 0, fromCache := false },
       setSessionCache "z::::ZodString"
         { data := .str "ok", tokens := 0, fromCache := false } 1 []) ∧
    ¬ 0 < ({ data := JsValue.str "ok", tokens := 0,
             fromCache := false } : ExecutionResult).tokens :=
  ⟨rfl, by decide⟩

/-- Witness for C1 (amended): a concrete request served once freshly
(writing the cache, with the adapter-reported count kept) and once from
the cache with identical data, `tokens = 0` and `fromCache = true`. -/
theorem executeAI_session_cache_semantics_witness :
    executeAI id id { prompt := "hello", schema := .str none none }
      (fun _ _ => .success (.str "mock") (some 6)) [] 2 =
      (.ok { data := .str "mock", tokens := 6, fromCache := false },
       setSessionCache "hello::::ZodString"
         { data := .str "mock", tokens := 6, fromCache := false } 2 []) ∧
    resolveTokens (some 6) "hello" .undef = 6 ∧
    executeAI id id { prompt := "hello", schema := .str none none }
      (fun _ _ => .success (.str "mock") (some 6))
      (setSessionCache "hello::::ZodString"
        { data := .str "mock", tokens := 6, fromCache := false } 2 []) 2 =
      (.ok { data := .str "mock", tokens := 0, fromCache := true },
       setSessionCache "hello::::ZodString"
         { data := .str "mock", tokens := 6, fromCache := false } 2 []) :=
  ((executeAI_session_cache_semantics id id
      { prompt := "hello", schema := .str none none }
      (fun _ _ => .success (.str "mock") (some 6))
      (fun _ _ => .success (.str "mock") (some 6)) [] 2 rfl).2
    (.str "mock") (some 6) (.str "mock") rfl rfl rfl).elim
    (fun h1 h2 => ⟨h1, h2.1.2 6 rfl, h2.2⟩)

/-- C10: a fallback result is never written to the session cache — on
exhaustion with a fallback the cache is returned unchanged; in general a
cache write happens only when the call returns a fresh successful validated
result (written under the request's fingerprint); and the identical
repeated request after a fallback still misses the cache and invokes the
provider again. -/
theorem executeAI_fallback_not_cached :
    (∀ (sanP : String → String) (sanI : JsValue → JsValue) (args : RequestArgs)
       (adapter : AdapterFn) (cache : SessionCache) (now : Nat) (fb : FallbackSpec),
       args.cache.getD .session = .session →
       getFromSessionCache
         (buildCacheKey (sanP args.prompt) (sanI args.input) args.schema) cache =
         none →
       (∀ j, j ≤ args.retry.getD 1 → attemptFails args.schema
         (adapter ⟨sanP args.prompt, sanI args.input, args.schema,
           args.temperature.getD 0, args.maxTokens, args.providerOptions⟩ j)) →
       args.fallback = some fb →
       executeAI sanP sanI args adapter cache now =
         (.ok { data := resolveFallback fb, tokens := 0, fromCache := false,
                usedFallback := true,
                fallbackReason := some (normalizedAttemptError
                  (adapter ⟨sanP args.prompt, sanI args.input, args.schema,
                    args.temperature.getD 0, args.maxTokens,
                    args.providerOptions⟩ (args.retry.getD 1))).message },
          cache)) ∧
    (∀ (sanP : String → String) (sanI : JsValue → JsValue) (args : RequestArgs)
       (adapter : AdapterFn) (cache : SessionCache) (now : Nat)
       (res : Except AIErrorV ExecutionResult) (cache' : SessionCache),
       executeAI sanP sanI args adapter cache now = (res, cache') →
       cache' = cache ∨
         ∃ r, res = .ok r ∧ r.fromCache = false ∧ r.usedFallback = false ∧
           cache' = setSessionCache
             (buildCacheKey (sanP args.prompt) (sanI args.input) args.schema)
             r now cache) ∧
    (∀ (sanP : String → String) (sanI : JsValue → JsValue) (args : RequestArgs)
       (adapter₂ : AdapterFn) (cache : SessionCache) (now : Nat)
       (d : JsValue) (tok : Option Nat) (v : JsValue),
       args.cache.getD .session = .session →
       getFromSessionCache
         (buildCacheKey (sanP args.prompt) (sanI args.input) args.schema) cache =
         none →
       adapter₂ ⟨sanP args.prompt, sanI args.input, args.schema,
         args.temperature.getD 0, args.maxTokens, args.providerOptions⟩ 0 =
         .success d tok →
       safeParse args.schema d = some v →
       executeAI sanP sanI args adapter₂ cache now =
         (.ok { data := v,
                tokens := resolveTokens tok (sanP args.prompt) (sanI args.input),
                fromCache := false },
          setSessionCache
            (buildCacheKey (sanP args.prompt) (sanI args.input) args.schema)
            { data := v,
              tokens := resolveTokens tok (sanP args.prompt) (sanI args.input),
              fromCache := false } now cache)) := by
  refine ⟨?_, ?_, ?_⟩
  · intro sanP sanI args adapter cache now fb hses hmiss hfails hfb
    have hrun : ∀ (ck : Option String) (sc : Bool),
        attemptLoop
          (⟨args.schema, sanP args.prompt, sanI args.input, ck, sc, now⟩ : AttemptCtx)
          (adapter ⟨sanP args.prompt, sanI args.input, args.schema,
            args.temperature.getD 0, args.maxTokens, args.providerOptions⟩)
          (args.retry.getD 1 + 1) 0 cache =
          (.error (normalizedAttemptError
            (adapter ⟨sanP args.prompt, sanI args.input, args.schema,
              args.temperature.getD 0, args.maxTokens,
              args.providerOptions⟩ (args.retry.getD 1))), cache) := by
      intro ck sc
      have := attemptLoop_all_fail
        ⟨args.schema, sanP args.prompt, sanI args.input, ck, sc, now⟩
        (adapter ⟨sanP args.prompt, sanI args.input, args.schema,
          args.temperature.getD 0, args.maxTokens, args.providerOptions⟩)
        (args.retry.getD 1 + 1) 0 cache (by omega)
        (by intro j hj; simpa using hfails j (by omega))
      rwa [show 0 + (args.retry.getD 1 + 1 - 1) = args.retry.getD 1 by omega] at this
    simp only [executeAI, hses]
    simp only [hmiss]
    rw [hrun, hfb]
  · intro sanP sanI args adapter cache now res cache' h
    rcases hpol : args.cache.getD .session with _ | _
    · -- session policy
      simp only [executeAI, hpol] at h
      rcases hhit : getFromSessionCache
          (buildCacheKey (sanP args.prompt) (sanI args.input) args.schema) cache
        with _ | r
      · simp only [hhit] at h
        rcases hloop : attemptLoop
            (⟨args.schema, sanP args.prompt, sanI args.input,
              some (buildCacheKey (sanP args.prompt) (sanI args.input) args.schema),
              decide True, now⟩ : AttemptCtx)
            (adapter ⟨sanP args.prompt, sanI args.input, args.schema,
              args.temperature.getD 0, args.maxTokens, args.providerOptions⟩)
            (args.retry.getD 1 + 1) 0 cache with ⟨res₀, cache₀⟩
        have hw := attemptLoop_cache_write _ _ _ _ _ _ _ hloop
        rw [hloop] at h
        rcases res₀ with e | r₀
        · -- exhausted: cache₀ unchanged, result error or fallback
          have hc : cache₀ = cache := by
            rcases hw with hc | ⟨r', hr', _⟩
            · exact hc
            · exact absurd hr' (by simp)
          rcases hfb : args.fallback with _ | fb <;> simp only [hfb] at h <;>
            injection h with h1 h2
          · exact Or.inl (by rw [← h2, hc])
          · exact Or.inl (by rw [← h2, hc])
        · simp only [] at h
          injection h with h1 h2
          rcases hw with hc | ⟨r', hr', hfc, hufb, k, hk, _, hset⟩
          · exact Or.inl (by rw [← h2, hc])
          · injection hr' with hr''
            refine Or.inr ⟨r₀, by rw [← h1], by rw [← hr''] at hfc; exact hfc,
              by rw [← hr''] at hufb; exact hufb, ?_⟩
            injection hk with hk'
            rw [← h2, hset, ← hk', ← hr'']
      · simp only [hhit] at h
        injection h with h1 h2
        exact Or.inl h2.symm
    · -- caching disabled: the loop context has no cache key, nothing is written
      simp only [executeAI, hpol] at h
      rcases hloop : attemptLoop
          (⟨args.schema, sanP args.prompt, sanI args.input, none,
            decide (CachePolicy.disabled = CachePolicy.session), now⟩ : AttemptCtx)
          (adapter ⟨sanP args.prompt, sanI args.input, args.schema,
            args.temperature.getD 0, args.maxTokens, args.providerOptions⟩)
          (args.retry.getD 1 + 1) 0 cache with ⟨res₀, cache₀⟩
      have hw := attemptLoop_cache_write _ _ _ _ _ _ _ hloop
      have hc : cache₀ = cache := by
        rcases hw with hc | ⟨r', _, _, _, k, hk, _⟩
        · exact hc
        · exact absurd hk (by simp)
      rw [hloop] at h
      rcases res₀ with e | r₀
      · rcases hfb : args.fallback with _ | fb <;> simp only [hfb] at h <;>
          injection h with h1 h2
        · exact Or.inl (by rw [← h2, hc])
        · exact Or.inl (by rw [← h2, hc])
      · simp only [] at h
        injection h with h1 h2
        exact Or.inl (by rw [← h2, hc])
  · intro sanP sanI args adapter₂ cache now d tok v hses hmiss hadapter hval
    simp only [executeAI, hses]
    simp only [hmiss]
    have hloop := attemptLoop_success_at
      ⟨args.schema, sanP args.prompt, sanI args.input,
        some (buildCacheKey (sanP args.prompt) (sanI args.input) args.schema),
        decide True, now⟩
      (adapter₂ ⟨sanP args.prompt, sanI args.input, args.schema,
        args.temperature.getD 0, args.maxTokens, args.providerOptions⟩)
      0 (args.retry.getD 1 + 1) 0 cache
      (setSessionCache
        (buildCacheKey (sanP args.prompt) (sanI args.input) args.schema)
        { data := v,
          tokens := resolveTokens tok (sanP args.prompt) (sanI args.input),
          fromCache := false } now cache)
      { data := v,
        tokens := resolveTokens tok (sanP args.prompt) (sanI args.input),
        fromCache := false }
      (by omega) (by intro j hj; omega)
      (by rw [Nat.add_zero, hadapter]; simp [attemptExecution, hval])
    rw [hloop]

/-- Witness for C10: a request whose attempts all fail and whose fallback
is `7` answers with the fallback while leaving the (empty) session cache
unchanged. -/
theorem executeAI_fallback_not_cached_witness :
    executeAI id id
      { prompt := "q", schema := .num none, fallback := some (.value (.num 7)) }
      (fun _ _ => .timedOut (.other "hung")) [] 9 =
      (.ok { data := .num 7, tokens := 0, fromCache := false,
             usedFallback := true,
             fallbackReason := some "AI call timed out" }, []) :=
  executeAI_fallback_not_cached.1 id id
    { prompt := "q", schema := .num none, fallback := some (.value (.num 7)) }
    (fun _ _ => .timedOut (.other "hung")) [] 9 (.value (.num 7))
    rfl rfl (fun _ _ => trivial) rfl

/-- C7: two context values equal up to object-key insertion order (at any
depth) have the same canonical serialization — `stableStringify` sorts
object keys, drops function-valued fields and (outside the acyclic modelled
range) marks cyclic references — and therefore produce the same cache
fingerprint. -/
theorem fingerprint_key_order_invariance :
    (∀ a b : JsValue, PermEq a b → stableStringify a = stableStringify b) ∧
    (∀ (prompt : String) (schema : Schema) (a b : JsValue), PermEq a b →
      buildCacheKey prompt a schema = buildCacheKey prompt b schema) := by
  have hs : ∀ a b : JsValue, PermEq a b → stableStringify a = stableStringify b :=
    fun a b h => congrArg jsonStringify (serialize_permEq h)
  refine ⟨hs, ?_⟩
  intro prompt schema a b h
  unfold buildCacheKey
  rw [hs a b h]

/-- Witness for C7: the contexts `{a:1, b:2}` and `{b:2, a:1}` are related
by `PermEq` and produce the same cache fingerprint. -/
theorem fingerprint_key_order_invariance_witness :
    PermEq (.obj (.cons "a" (.num 1) (.cons "b" (.num 2) .nil)))
      (.obj (.cons "b" (.num 2) (.cons "a" (.num 1) .nil))) ∧
    buildCacheKey "task" (.obj (.cons "a" (.num 1) (.cons "b" (.num 2) .nil)))
      (.str none none) =
      buildCacheKey "task" (.obj (.cons "b" (.num 2) (.cons "a" (.num 1) .nil)))
        (.str none none) := by
  have hperm : PermEq (.obj (.cons "a" (.num 1) (.cons "b" (.num 2) .nil)))
      (.obj (.cons "b" (.num 2) (.cons "a" (.num 1) .nil))) := by
    refine PermEq.obj
      (.cons "a" (PermEq.num 1) (.cons "b" (PermEq.num 2) .nil)) ?_ ?_
    · show List.Perm [("a", JsValue.num 1), ("b", JsValue.num 2)]
        [("b", JsValue.num 2), ("a", JsValue.num 1)]
      exact List.Perm.swap _ _ _
    · show (List.map Prod.fst
        [("a", JsValue.num 1), ("b", JsValue.num 2)]).Nodup
      decide
  exact ⟨hperm,
    fingerprint_key_order_invariance.2 "task" (.str none none) _ _ hperm⟩

/-- Witness for C8: with the caller signal aborted at attempt 0 and an
attempt that fails, the streaming loop surfaces that attempt's error with
five retries still available. -/
theorem executeAIStream_caller_abort_stops_retries_witness :
    streamLoop (.str none none) "s" .undef
      (fun _ => .failure (.ai ⟨"cancelled", .provider_error⟩))
      (fun _ => true) 6 0 = .error ⟨"cancelled", .provider_error⟩ :=
  executeAIStream_caller_abort_stops_retries.1 (.str none none) "s" .undef
    (fun _ => .failure (.ai ⟨"cancelled", .provider_error⟩))
    (fun _ => true) 5 0 ⟨"cancelled", .provider_error⟩ rfl rfl

end RAQ
